import Mathlib

/-!
Shallow embedding of the DEX order-execution engine
(src/services/dex-router.ts, src/services/order-queue.ts, src/config.ts,
src/types/index.ts) and proofs about it.

JavaScript numbers are modelled as rationals (ℚ); `Math.random()` draws are
passed in as explicit parameters, each assumed to lie in `[0, 1)` where a
claim needs the bound.  Fallible methods (`throw`) are modelled with
`Except`.  Asynchronous delays (`sleep`) have no observable effect on the
values computed and are omitted.
-/

namespace DexEngine

/-- The `DexType` enum from src/types/index.ts. -/
inductive DexType
  | raydium
  | meteora
  deriving DecidableEq, Repr

/-- The `OrderStatus` enum from src/types/index.ts. -/
inductive OrderStatus
  | pending
  | routing
  | building
  | submitted
  | confirmed
  | failed
  deriving DecidableEq, Repr

/-- The `OrderType` enum from src/types/index.ts. -/
inductive OrderType
  | market
  | limit
  | sniper
  deriving DecidableEq, Repr

/-- The `DexQuote` interface from src/types/index.ts. -/
structure DexQuote where
  dex : DexType
  price : ℚ
  fee : ℚ
  amountOut : ℚ
  priceImpact : ℚ
  estimatedGas : ℚ
  deriving DecidableEq, Repr

/-- The order fields used by the pipeline (`Order` interface,
src/types/index.ts); the denormalized `status`/timestamps live in the
database collaborator and are not read by the pipeline. -/
structure Order where
  id : String
  type : OrderType
  tokenIn : String
  tokenOut : String
  amountIn : ℚ
  slippage : ℚ
  walletAddress : String
  deriving DecidableEq, Repr

/-- The errors thrown by the router/executor (`throw new Error(...)` sites
in src/services/dex-router.ts), one constructor per throw site. -/
inductive SwapError
  | invalidTokenAddresses
  | sameToken
  | nonPositiveAmount
  | invalidSlippage
  | noQuotesAvailable
  | slippageExceeded (quotePrice executedPrice : ℚ)
  deriving DecidableEq, Repr

/-- The constant message strings of the `Error` values thrown in
src/services/dex-router.ts.  The `slippageExceeded` message interpolates
`toFixed(6)`-formatted prices; its formatting is not modelled, so it maps
to `none`. -/
def SwapError.message : SwapError → Option String
  | .invalidTokenAddresses => some "Invalid token addresses"
  | .sameToken => some "Cannot swap same token"
  | .nonPositiveAmount => some "Amount must be greater than 0"
  | .invalidSlippage => some "Slippage must be between 0 and 1"
  | .noQuotesAvailable => some "No quotes available"
  | .slippageExceeded _ _ => none

/-- Decidable equality of `Except` results, so that concrete runs can be
checked by evaluation. -/
instance {ε α : Type} [DecidableEq ε] [DecidableEq α] :
    DecidableEq (Except ε α) := fun a b =>
  match a, b with
  | .error e, .error e' =>
    if h : e = e' then .isTrue (h ▸ rfl)
    else .isFalse (fun hh => h (Except.error.inj hh))
  | .ok x, .ok y =>
    if h : x = y then .isTrue (h ▸ rfl)
    else .isFalse (fun hh => h (Except.ok.inj hh))
  | .error _, .ok _ => .isFalse (fun hh => Except.noConfusion hh)
  | .ok _, .error _ => .isFalse (fun hh => Except.noConfusion hh)

/-! Configuration: src/config.ts, default values of the env lookups. -/

/-- Default value of `config.dex.raydiumFee`, `'0.003'`. -/
def raydiumFee : ℚ := 3 / 1000

/-- Default value of `config.dex.meteoraFee`, `'0.002'`. -/
def meteoraFee : ℚ := 2 / 1000

/-- Default value of `config.queue.maxRetries`, `'3'`. -/
def maxRetries : ℕ := 3

/-- Embeds `DexRouter.basePrice` (src/services/dex-router.ts line 7). -/
def basePrice : ℚ := 1

/-! The DexRouter service (src/services/dex-router.ts). -/

/-- Embeds `DexRouter.validateOrder` (src/services/dex-router.ts lines 141-157).
JS `!tokenIn` is true exactly on the empty string for string inputs. -/
def validateOrder (tokenIn tokenOut : String) (amount slippage : ℚ) :
    Except SwapError Unit :=
  if tokenIn = "" ∨ tokenOut = "" then .error .invalidTokenAddresses
  else if tokenIn = tokenOut then .error .sameToken
  else if amount ≤ 0 then .error .nonPositiveAmount
  else if slippage < 0 ∨ slippage > 1 then .error .invalidSlippage
  else .ok ()

/-- Embeds `DexRouter.getRaydiumQuote` (src/services/dex-router.ts lines 13-32).
`priceR`, `impactR`, `gasR` stand for the three `Math.random()` draws, in
source order. -/
def getRaydiumQuote (_tokenIn _tokenOut : String) (amount : ℚ)
    (priceR impactR gasR : ℚ) : DexQuote :=
  let price := basePrice * (98 / 100 + priceR * (4 / 100))
  let amountOut := amount * price
  let fee := amount * raydiumFee
  { dex := .raydium
    price := price
    fee := fee
    amountOut := amountOut - fee
    priceImpact := impactR * (2 / 100)
    estimatedGas := 5000 + ((Int.floor (gasR * 2000) : ℤ) : ℚ) }

/-- Embeds `DexRouter.getMeteorQuote` (src/services/dex-router.ts lines 38-57). -/
def getMeteorQuote (_tokenIn _tokenOut : String) (amount : ℚ)
    (priceR impactR gasR : ℚ) : DexQuote :=
  let price := basePrice * (97 / 100 + priceR * (5 / 100))
  let amountOut := amount * price
  let fee := amount * meteoraFee
  { dex := .meteora
    price := price
    fee := fee
    amountOut := amountOut - fee
    priceImpact := impactR * (25 / 1000)
    estimatedGas := 4500 + ((Int.floor (gasR * 2000) : ℤ) : ℚ) }

/-- Net proceeds of a quote, the quantity `selectBestQuote` compares
(src/services/dex-router.ts lines 79-80). -/
def net (q : DexQuote) : ℚ := q.amountOut - q.estimatedGas

/-- The reduction step of `selectBestQuote`
(src/services/dex-router.ts lines 78-82). -/
def bestStep (best current : DexQuote) : DexQuote :=
  if net current > net best then current else best

/-- Embeds `DexRouter.selectBestQuote` (src/services/dex-router.ts lines 74-83):
throws on an empty list, otherwise `quotes.reduce(step, quotes[0])` — a
left fold with `quotes[0]` as the initial accumulator, which JS then also
visits as the first element. -/
def selectBestQuote (quotes : List DexQuote) : Except SwapError DexQuote :=
  match quotes with
  | [] => .error .noQuotesAvailable
  | q0 :: _ => .ok (quotes.foldl bestStep q0)

/-- The fixed alphabet of `generateMockTxHash`
(src/services/dex-router.ts line 130). -/
def txhashAlphabet : List Char :=
  "123456789ABCDEFGHJKLMNPQRSTUVWXYZabcdefghijkmnopqrstuvwxyz".toList

/-- JS `String.prototype.charAt`: the one-character substring at the index,
empty when the index is out of range. -/
def jsCharAt (s : List Char) (i : ℤ) : List Char :=
  if 0 ≤ i then (s.drop i.toNat).take 1 else []

/-- Embeds `DexRouter.generateMockTxHash` (src/services/dex-router.ts lines
129-136): 88 iterations of `hash += chars.charAt(floor(random * 58))`.
`hashR i` stands for the `Math.random()` draw of iteration `i`. -/
def generateMockTxHash (hashR : ℕ → ℚ) : List Char :=
  ((List.range 88).map
    (fun i => jsCharAt txhashAlphabet
      (Int.floor (hashR i * (txhashAlphabet.length : ℚ))))).flatten

/-- The executed price computed in `executeSwap`
(src/services/dex-router.ts lines 107-108): `priceChange` is
`random * 0.02 - 0.01` and `executedPrice` is `quote.price * (1 + priceChange)`. -/
def executedPriceOf (quote : DexQuote) (execR : ℚ) : ℚ :=
  quote.price * (1 + (execR * (2 / 100) - 1 / 100))

/-- The record returned by a successful `executeSwap`. -/
structure ExecResult where
  txHash : List Char
  executedPrice : ℚ
  amountOut : ℚ
  deriving DecidableEq, Repr

/-- Embeds `DexRouter.executeSwap` (src/services/dex-router.ts lines 89-124).
`execR` is the `Math.random()` draw for the price movement; `hashR` feeds
`generateMockTxHash`.  The `sleep` calls do not affect the result. -/
def executeSwap (_dex : DexType) (_tokenIn _tokenOut : String) (amount : ℚ)
    (quote : DexQuote) (slippage : ℚ) (execR : ℚ) (hashR : ℕ → ℚ) :
    Except SwapError ExecResult :=
  let executedPrice := executedPriceOf quote execR
  if executedPrice < quote.price * (1 - slippage) then
    .error (.slippageExceeded quote.price executedPrice)
  else
    .ok { txHash := generateMockTxHash hashR
          executedPrice := executedPrice
          amountOut := amount * executedPrice - quote.fee }

/-! The OrderQueue pipeline (src/services/order-queue.ts). -/

/-- One `Math.random()` draw per random quantity consumed by a single
pipeline attempt: three per venue quote, one for the execution price
movement, and one per transaction-hash character. -/
structure Rand where
  rayPriceR : ℚ
  rayImpactR : ℚ
  rayGasR : ℚ
  metPriceR : ℚ
  metImpactR : ℚ
  metGasR : ℚ
  execR : ℚ
  hashR : ℕ → ℚ

/-- Embeds `DexRouter.getAllQuotes` (src/services/dex-router.ts lines 62-69):
both venue quotes, Raydium first. -/
def getAllQuotes (tokenIn tokenOut : String) (amount : ℚ) (r : Rand) :
    List DexQuote :=
  [getRaydiumQuote tokenIn tokenOut amount r.rayPriceR r.rayImpactR r.rayGasR,
   getMeteorQuote tokenIn tokenOut amount r.metPriceR r.metImpactR r.metGasR]

/-- The six-status success trace of one pipeline attempt: `routing` is
emitted twice (bare, then with the quote payload) — src/services/
order-queue.ts lines 104-170. -/
def fullStatusSeq : List OrderStatus :=
  [.pending, .routing, .routing, .building, .submitted, .confirmed]

/-- Embeds `OrderQueue.processOrder` (src/services/order-queue.ts lines 99-185),
one pipeline attempt.  Returns the sequence of statuses passed to
`updateStatus` (each is persisted and emitted, in order) together with the
attempt outcome: `ok` when the attempt completes, `error e` when it
re-threw `e` to the retry mechanism.  The database collaborator is assumed
not to fail, so `updateStatus` always succeeds. -/
def processOrder (o : Order) (r : Rand) :
    List OrderStatus × Except SwapError Unit :=
  match validateOrder o.tokenIn o.tokenOut o.amountIn o.slippage with
  | .error e => ([.pending, .failed], .error e)
  | .ok _ =>
    let quotes := getAllQuotes o.tokenIn o.tokenOut o.amountIn r
    match selectBestQuote quotes with
    | .error e => ([.pending, .routing, .failed], .error e)
    | .ok best =>
      match executeSwap best.dex o.tokenIn o.tokenOut o.amountIn best
          o.slippage r.execR r.hashR with
      | .error e =>
        ([.pending, .routing, .routing, .building, .failed], .error e)
      | .ok _ =>
        (fullStatusSeq, .ok ())

/-- Modelled from the spec: the retry controller wrapping `processOrder` is
the BullMQ job queue (a third-party library, configured but not implemented
in this repository; src/services/order-queue.ts lines 29-46 set
`attempts: config.queue.maxRetries` with exponential backoff).  Per the
spec, a failed attempt is re-run from the top until it succeeds or the
ceiling of `maxAttempts` total attempts is reached; the backoff delays do
not affect the computed values and are omitted.  `rands i` supplies the
randomness of attempt `i`.  Returns the per-attempt results, in order. -/
def runAttempts (o : Order) (rands : ℕ → Rand) :
    ℕ → ℕ → List (List OrderStatus × Except SwapError Unit)
  | 0, _ => []
  | n + 1, i =>
    let r := processOrder o (rands i)
    match r.2 with
    | .ok _ => [r]
    | .error _ => r :: runAttempts o rands n (i + 1)

/-! Concrete sample values used to exercise the definitions. -/

/-- The quote `A{amountOut:99.7, estimatedGas:5000}` of the spec's
`selectBest` example. -/
def quoteA : DexQuote :=
  { dex := .raydium, price := 1, fee := 0, amountOut := 997 / 10
    priceImpact := 0, estimatedGas := 5000 }

/-- The quote `B{amountOut:101.8, estimatedGas:4500}` of the spec's
`selectBest` example. -/
def quoteB : DexQuote :=
  { dex := .meteora, price := 1, fee := 0, amountOut := 1018 / 10
    priceImpact := 0, estimatedGas := 4500 }

/-- A quote with unit price and no fee. -/
def sampleQuote : DexQuote :=
  { dex := .raydium, price := 1, fee := 0, amountOut := 1
    priceImpact := 0, estimatedGas := 5000 }

/-- A valid market order. -/
def sampleOrder : Order :=
  { id := "order-1", type := .market, tokenIn := "USDC", tokenOut := "BONK"
    amountIn := 1, slippage := 1, walletAddress := "wallet-1" }

/-- An order rejected by `validateOrder` (empty `tokenIn`). -/
def invalidOrder : Order :=
  { id := "order-2", type := .market, tokenIn := "", tokenOut := "BONK"
    amountIn := 1, slippage := 1 / 100, walletAddress := "wallet-1" }

/-- A fixed randomness environment: every `Math.random()` draw is `0`. -/
def sampleRand : Rand :=
  { rayPriceR := 0, rayImpactR := 0, rayGasR := 0, metPriceR := 0
    metImpactR := 0, metGasR := 0, execR := 0, hashR := fun _ => 0 }

end DexEngine

namespace DexEngine

/-! Theorems about the embedded program. -/

/-- C5: `validateOrder` fails with `InvalidOrder` exactly when `tokenIn` is
empty, `tokenOut` is empty, the tokens are equal, the amount is ≤ 0, or the
slippage is outside `[0,1]`; for all other inputs it succeeds.  It is a
pure function of its four arguments. -/
theorem validateOrder_fails_iff (tokenIn tokenOut : String)
    (amount slippage : ℚ) :
    ((∃ e, validateOrder tokenIn tokenOut amount slippage = .error e) ↔
      (tokenIn = "" ∨ tokenOut = "" ∨ tokenIn = tokenOut ∨ amount ≤ 0 ∨
        slippage < 0 ∨ 1 < slippage)) ∧
    ((validateOrder tokenIn tokenOut amount slippage = .ok ()) ↔
      ¬(tokenIn = "" ∨ tokenOut = "" ∨ tokenIn = tokenOut ∨ amount ≤ 0 ∨
        slippage < 0 ∨ 1 < slippage)) := by
  unfold validateOrder
  split_ifs with h1 h2 h3 h4 <;> simp_all
  tauto

/-- C9: `selectBestQuote` on the empty quote list fails with the
`NoQuotesAvailable` error, whose message is `'No quotes available'`. -/
theorem selectBestQuote_empty_fails :
    selectBestQuote [] = .error .noQuotesAvailable ∧
      SwapError.message .noQuotesAvailable = some "No quotes available" :=
  ⟨rfl, rfl⟩

/-- C8: each venue's fee equals `amount × feeRate` (hence is within the
`1e-4` floating tolerance of it), for every amount and every draw of the
venue's randomness; in particular for `amount = 100` and the Raydium rate
`0.003` the fee is exactly `0.3`. -/
theorem venue_fee_eq_amount_mul_rate (tokenIn tokenOut : String)
    (amount priceR impactR gasR : ℚ) :
    ((getRaydiumQuote tokenIn tokenOut amount priceR impactR gasR).fee =
        amount * raydiumFee) ∧
    (|(getRaydiumQuote tokenIn tokenOut amount priceR impactR gasR).fee -
        amount * raydiumFee| ≤ 1 / 10000) ∧
    ((getMeteorQuote tokenIn tokenOut amount priceR impactR gasR).fee =
        amount * meteoraFee) ∧
    (|(getMeteorQuote tokenIn tokenOut amount priceR impactR gasR).fee -
        amount * meteoraFee| ≤ 1 / 10000) ∧
    ((getRaydiumQuote tokenIn tokenOut 100 priceR impactR gasR).fee = 3 / 10 ∧
      raydiumFee = 3 / 1000) := by
  refine ⟨rfl, ?_, rfl, ?_, by norm_num [getRaydiumQuote, raydiumFee], rfl⟩ <;>
    simp [getRaydiumQuote, getMeteorQuote]

/-- C4: `executeSwap` fails with `SlippageExceeded` (carrying the quote
price and the executed price) if and only if the executed price is strictly
below `quote.price × (1 − slippage)`; whenever the executed price is at or
above that threshold — favorable movement of any magnitude included — the
swap succeeds. -/
theorem executeSwap_slippage_iff (dex : DexType) (tokenIn tokenOut : String)
    (amount : ℚ) (quote : DexQuote) (slippage execR : ℚ) (hashR : ℕ → ℚ) :
    ((executeSwap dex tokenIn tokenOut amount quote slippage execR hashR =
        .error (.slippageExceeded quote.price (executedPriceOf quote execR))) ↔
      executedPriceOf quote execR < quote.price * (1 - slippage)) ∧
    ((executeSwap dex tokenIn tokenOut amount quote slippage execR
        hashR).isOk = true ↔
      ¬ executedPriceOf quote execR < quote.price * (1 - slippage)) := by
  unfold executeSwap
  dsimp only
  split_ifs with h <;> simp [h, Except.isOk, Except.toBool]

/-- C10: when the order's slippage tolerance is at least `0.01`, the
`SlippageExceeded` branch of `executeSwap` is unreachable — the simulated
price perturbation is bounded below by −1% (`Math.random() ≥ 0`), so for a
nonnegative quote price the executed price never drops below
`quote.price × (1 − slippage)` and the swap always succeeds. -/
theorem executeSwap_ok_of_slippage_ge (dex : DexType)
    (tokenIn tokenOut : String) (amount : ℚ) (quote : DexQuote)
    (slippage execR : ℚ) (hashR : ℕ → ℚ)
    (hs : 1 / 100 ≤ slippage) (h0 : 0 ≤ execR) (hp : 0 ≤ quote.price) :
    (executeSwap dex tokenIn tokenOut amount quote slippage execR
      hashR).isOk = true := by
  unfold executeSwap
  rw [if_neg]
  · rfl
  · push_neg
    unfold executedPriceOf
    nlinarith [mul_nonneg hp h0, mul_nonneg hp (sub_nonneg.mpr hs)]

/-- Witness for C10 at a concrete quote, slippage `0.01` and draw `0`. -/
theorem executeSwap_ok_of_slippage_ge_witness :
    (executeSwap .raydium "USDC" "BONK" 1 sampleQuote (1 / 100) 0
      (fun _ => 0)).isOk = true :=
  executeSwap_ok_of_slippage_ge .raydium "USDC" "BONK" 1 sampleQuote
    (1 / 100) 0 (fun _ => 0) (le_refl _) (le_refl _) (by norm_num [sampleQuote])

/-- C6: every result `executeSwap` returns has its executed price inside
`[quote.price × 0.99, quote.price × 1.01]`, for every draw of the price
perturbation (`Math.random() ∈ [0,1)`) and every quote with nonnegative
price. -/
theorem executeSwap_executedPrice_bounds (dex : DexType)
    (tokenIn tokenOut : String) (amount : ℚ) (quote : DexQuote)
    (slippage execR : ℚ) (hashR : ℕ → ℚ) (res : ExecResult)
    (hp : 0 ≤ quote.price) (h0 : 0 ≤ execR) (h1 : execR < 1)
    (hok : executeSwap dex tokenIn tokenOut amount quote slippage execR
      hashR = .ok res) :
    quote.price * (99 / 100) ≤ res.executedPrice ∧
      res.executedPrice ≤ quote.price * (101 / 100) := by
  unfold executeSwap at hok
  dsimp only at hok
  split_ifs at hok
  have hres : res.executedPrice = executedPriceOf quote execR := by
    cases hok
    rfl
  rw [hres]
  unfold executedPriceOf
  constructor
  · nlinarith [mul_nonneg hp h0]
  · nlinarith [mul_nonneg hp (sub_nonneg.mpr h1.le)]

/-- The left fold of `bestStep` either keeps the accumulator — in which
case no list element strictly beats it — or lands on a list element that
strictly beats the accumulator, with every element before it strictly worse
and every element after it no better. -/
theorem foldl_bestStep_spec (rest : List DexQuote) (acc : DexQuote) :
    (rest.foldl bestStep acc = acc ∧ ∀ q ∈ rest, net q ≤ net acc) ∨
    (∃ l1 l2, rest = l1 ++ rest.foldl bestStep acc :: l2 ∧
      net acc < net (rest.foldl bestStep acc) ∧
      (∀ q ∈ l1, net q < net (rest.foldl bestStep acc)) ∧
      (∀ q ∈ l2, net q ≤ net (rest.foldl bestStep acc))) := by
  induction rest generalizing acc with
  | nil => exact Or.inl ⟨rfl, by simp⟩
  | cons b t ih =>
    rw [List.foldl_cons]
    by_cases hb : net acc < net b
    · have hstep : bestStep acc b = b := by simp [bestStep, hb]
      rw [hstep]
      rcases ih b with ⟨heq, hall⟩ | ⟨l1, l2, ht, hlt, h1, h2⟩
      · rw [heq]
        exact Or.inr ⟨[], t, rfl, hb, by simp, hall⟩
      · refine Or.inr ⟨b :: l1, l2, ?_, hb.trans hlt, ?_, h2⟩
        · rw [List.cons_append, ← ht]
        · intro q hq
          rcases List.mem_cons.mp hq with rfl | hq
          · exact hlt
          · exact h1 q hq
    · have hstep : bestStep acc b = acc := by simp [bestStep, hb]
      rw [hstep]
      rcases ih acc with ⟨heq, hall⟩ | ⟨l1, l2, ht, hlt, h1, h2⟩
      · refine Or.inl ⟨heq, ?_⟩
        intro q hq
        rcases List.mem_cons.mp hq with rfl | hq
        · exact le_of_not_lt hb
        · exact hall q hq
      · refine Or.inr ⟨b :: l1, l2, ?_, hlt, ?_, h2⟩
        · rw [List.cons_append, ← ht]
        · intro q hq
          rcases List.mem_cons.mp hq with rfl | hq
          · exact (le_of_not_lt hb).trans_lt hlt
          · exact h1 q hq

/-- C1: on every non-empty quote list, `selectBestQuote` returns an element
of the list maximizing the net proceeds `amountOut − estimatedGas`, and it
is the first maximal element in input order (every strictly earlier element
has strictly smaller net proceeds); on the spec's example quotes
`A{amountOut:99.7, estimatedGas:5000}` and `B{amountOut:101.8,
estimatedGas:4500}` it returns `B`. -/
theorem selectBestQuote_first_max :
    (∀ quotes : List DexQuote, quotes ≠ [] →
      ∃ best l1 l2, selectBestQuote quotes = .ok best ∧
        quotes = l1 ++ best :: l2 ∧
        (∀ q ∈ quotes, net q ≤ net best) ∧
        (∀ q ∈ l1, net q < net best)) ∧
    selectBestQuote [quoteA, quoteB] = .ok quoteB := by
  constructor
  · intro quotes hne
    rcases quotes with _ | ⟨q0, rest⟩
    · exact absurd rfl hne
    have hstep0 : bestStep q0 q0 = q0 := by simp [bestStep]
    have hsel : selectBestQuote (q0 :: rest) =
        .ok (rest.foldl bestStep q0) := by
      simp [selectBestQuote, List.foldl_cons, hstep0]
    rcases foldl_bestStep_spec rest q0 with ⟨heq, hall⟩ | ⟨l1, l2, ht, hlt, h1, h2⟩
    · rw [heq] at hsel
      refine ⟨q0, [], rest, hsel, rfl, ?_, by simp⟩
      intro q hq
      rcases List.mem_cons.mp hq with rfl | hq
      · exact le_refl _
      · exact hall q hq
    · refine ⟨rest.foldl bestStep q0, q0 :: l1, l2, hsel, ?_, ?_, ?_⟩
      · rw [List.cons_append, ← ht]
      · intro q hq
        rcases List.mem_cons.mp hq with rfl | hq
        · exact hlt.le
        · rw [ht] at hq
          rcases List.mem_append.mp hq with hq | hq
          · exact (h1 q hq).le
          · rcases List.mem_cons.mp hq with rfl | hq
            · exact le_refl _
            · exact h2 q hq
      · intro q hq
        rcases List.mem_cons.mp hq with rfl | hq
        · exact hlt
        · exact h1 q hq
  · have hAB : net quoteA < net quoteB := by norm_num [net, quoteA, quoteB]
    have h11 : bestStep quoteA quoteA = quoteA := by simp [bestStep]
    have h12 : bestStep quoteA quoteB = quoteB := by
      unfold bestStep
      rw [if_pos hAB]
    simp [selectBestQuote, h11, h12]

/-- Witness for C1 at the concrete one-element list `[quoteA]`. -/
theorem selectBestQuote_first_max_witness :
    ∃ best l1 l2, selectBestQuote [quoteA] = .ok best ∧
      [quoteA] = l1 ++ best :: l2 ∧
      (∀ q ∈ [quoteA], net q ≤ net best) ∧
      (∀ q ∈ l1, net q < net best) :=
  selectBestQuote_first_max.1 [quoteA] (by simp)

/-- Witness for C6: a concrete successful swap whose executed price lies in
the `±1%` band. -/
theorem executeSwap_executedPrice_bounds_witness :
    ∃ res, executeSwap .raydium "USDC" "BONK" 1 sampleQuote (1 / 2) (1 / 2)
        (fun _ => 0) = .ok res ∧
      sampleQuote.price * (99 / 100) ≤ res.executedPrice ∧
      res.executedPrice ≤ sampleQuote.price * (101 / 100) := by
  have hok : executeSwap .raydium "USDC" "BONK" 1 sampleQuote (1 / 2) (1 / 2)
      (fun _ => 0) =
      .ok { txHash := generateMockTxHash (fun _ => 0)
            executedPrice := executedPriceOf sampleQuote (1 / 2)
            amountOut := 1 * executedPriceOf sampleQuote (1 / 2) -
              sampleQuote.fee } := by
    unfold executeSwap
    dsimp only
    rw [if_neg (by norm_num [executedPriceOf, sampleQuote])]
  obtain ⟨h1, h2⟩ := executeSwap_executedPrice_bounds .raydium "USDC" "BONK" 1
    sampleQuote (1 / 2) (1 / 2) (fun _ => 0) _ (by norm_num [sampleQuote])
    (by norm_num) (by norm_num) hok
  exact ⟨_, hok, h1, h2⟩

/-- `jsCharAt` on an in-range index yields exactly one character, taken
from the string. -/
theorem jsCharAt_spec (s : List Char) (i : ℤ) (h0 : 0 ≤ i)
    (h1 : i < (s.length : ℤ)) :
    (jsCharAt s i).length = 1 ∧ ∀ c ∈ jsCharAt s i, c ∈ s := by
  unfold jsCharAt
  rw [if_pos h0]
  constructor
  · have hi : i.toNat < s.length := by omega
    rw [List.length_take, List.length_drop]
    omega
  · intro c hc
    exact List.drop_subset _ _ (List.take_subset _ _ hc)

/-- Lists all of whose entries are singletons flatten to a list of the same
length. -/
theorem flatten_length_of_singletons (L : List (List Char))
    (h : ∀ x ∈ L, x.length = 1) : L.flatten.length = L.length := by
  induction L with
  | nil => rfl
  | cons a t ih =>
    rw [List.flatten_cons, List.length_append, h a (List.mem_cons_self a t),
      ih (fun x hx => h x (List.mem_cons_of_mem a hx)), List.length_cons]
    omega

/-- The generated transaction hash has 88 characters, all from the fixed
alphabet, whenever every `Math.random()` draw lies in `[0,1)`. -/
theorem generateMockTxHash_spec (hashR : ℕ → ℚ)
    (hr : ∀ i, 0 ≤ hashR i ∧ hashR i < 1) :
    (generateMockTxHash hashR).length = 88 ∧
      ∀ c ∈ generateMockTxHash hashR, c ∈ txhashAlphabet := by
  have key : ∀ i : ℕ,
      (jsCharAt txhashAlphabet
        (Int.floor (hashR i * (txhashAlphabet.length : ℚ)))).length = 1 ∧
      ∀ c ∈ jsCharAt txhashAlphabet
        (Int.floor (hashR i * (txhashAlphabet.length : ℚ))), c ∈ txhashAlphabet := by
    intro i
    obtain ⟨h0, h1⟩ := hr i
    apply jsCharAt_spec
    · exact Int.floor_nonneg.mpr (mul_nonneg h0 (Nat.cast_nonneg _))
    · rw [Int.floor_lt]
      push_cast
      have hpos : (0 : ℚ) < (txhashAlphabet.length : ℚ) := by
        norm_num [txhashAlphabet]
      nlinarith
  unfold generateMockTxHash
  constructor
  · rw [flatten_length_of_singletons]
    · rw [List.length_map, List.length_range]
    · intro x hx
      rw [List.mem_map] at hx
      obtain ⟨i, _, rfl⟩ := hx
      exact (key i).1
  · intro c hc
    rw [List.mem_flatten] at hc
    obtain ⟨x, hx, hcx⟩ := hc
    rw [List.mem_map] at hx
    obtain ⟨i, _, rfl⟩ := hx
    exact (key i).2 c hcx

/-- C7: every successful `executeSwap` returns
`amountOut = amount × executedPrice − quote.fee` and a transaction
identifier of exactly 88 characters, each drawn from the fixed
base-58-like alphabet (given `Math.random() ∈ [0,1)` for each draw). -/
theorem executeSwap_success_shape (dex : DexType) (tokenIn tokenOut : String)
    (amount : ℚ) (quote : DexQuote) (slippage execR : ℚ) (hashR : ℕ → ℚ)
    (res : ExecResult)
    (hr : ∀ i, 0 ≤ hashR i ∧ hashR i < 1)
    (hok : executeSwap dex tokenIn tokenOut amount quote slippage execR
      hashR = .ok res) :
    res.amountOut = amount * res.executedPrice - quote.fee ∧
      res.txHash.length = 88 ∧
      ∀ c ∈ res.txHash, c ∈ txhashAlphabet := by
  unfold executeSwap at hok
  dsimp only at hok
  split_ifs at hok
  cases hok
  exact ⟨rfl, (generateMockTxHash_spec hashR hr).1,
    (generateMockTxHash_spec hashR hr).2⟩

/-- Witness for C7: a concrete successful swap with all hash draws `0`. -/
theorem executeSwap_success_shape_witness :
    ∃ res, executeSwap .raydium "USDC" "BONK" 1 sampleQuote (1 / 100) 0
        (fun _ => 0) = .ok res ∧
      res.amountOut = 1 * res.executedPrice - sampleQuote.fee ∧
      res.txHash.length = 88 ∧
      ∀ c ∈ res.txHash, c ∈ txhashAlphabet := by
  have hok : executeSwap .raydium "USDC" "BONK" 1 sampleQuote (1 / 100) 0
      (fun _ => 0) =
      .ok { txHash := generateMockTxHash (fun _ => 0)
            executedPrice := executedPriceOf sampleQuote 0
            amountOut := 1 * executedPriceOf sampleQuote 0 -
              sampleQuote.fee } := by
    unfold executeSwap
    dsimp only
    rw [if_neg (by norm_num [executedPriceOf, sampleQuote])]
  exact ⟨_, hok, executeSwap_success_shape .raydium "USDC" "BONK" 1
    sampleQuote (1 / 100) 0 (fun _ => 0) _
    (fun i => ⟨le_refl 0, by norm_num⟩) hok⟩

/-- C2: one run of `processOrder` persists and emits exactly
`pending, routing, routing, building, submitted, confirmed` when the
attempt succeeds, and otherwise a proper prefix of that sequence starting
at `pending` followed by one final `failed`. -/
theorem processOrder_trace (o : Order) (r : Rand) :
    ((processOrder o r).2.isOk = true → (processOrder o r).1 = fullStatusSeq) ∧
    ((processOrder o r).2.isOk = false →
      ∃ k, 1 ≤ k ∧ k < fullStatusSeq.length ∧
        (processOrder o r).1 = fullStatusSeq.take k ++ [.failed]) := by
  unfold processOrder
  dsimp only
  split
  · exact ⟨fun h => Bool.noConfusion h, fun _ => ⟨1, by decide, by decide, rfl⟩⟩
  · split
    · exact ⟨fun h => Bool.noConfusion h, fun _ => ⟨2, by decide, by decide, rfl⟩⟩
    · split
      · exact ⟨fun h => Bool.noConfusion h, fun _ => ⟨4, by decide, by decide, rfl⟩⟩
      · exact ⟨fun _ => rfl, fun h => Bool.noConfusion h⟩

/-- Witness for C2: a concrete successful run emits the full sequence and a
concrete invalid order emits `pending` followed by `failed`. -/
theorem processOrder_trace_witness :
    ((processOrder sampleOrder sampleRand).1 = fullStatusSeq) ∧
    (∃ k, 1 ≤ k ∧ k < fullStatusSeq.length ∧
      (processOrder invalidOrder sampleRand).1 =
        fullStatusSeq.take k ++ [.failed]) := by
  have hsucc : (processOrder sampleOrder sampleRand).2.isOk = true := by
    have h1 : ("USDC" = "") = False := eq_false (by decide)
    have h2 : ("BONK" = "") = False := eq_false (by decide)
    have h3 : ("USDC" = "BONK") = False := eq_false (by decide)
    norm_num [h1, h2, h3, processOrder, sampleOrder, sampleRand, validateOrder,
      getAllQuotes, getRaydiumQuote, getMeteorQuote, selectBestQuote,
      bestStep, net, executeSwap, executedPriceOf, basePrice, raydiumFee,
      meteoraFee, Except.isOk, Except.toBool]
  exact ⟨(processOrder_trace sampleOrder sampleRand).1 hsucc,
    (processOrder_trace invalidOrder sampleRand).2 rfl⟩

/-- Counterexample to C3: an order failing validation (empty `tokenIn`) is
re-attempted — the retry controller makes all `maxRetries = 3` attempts,
not 1, because `processOrder` re-throws the `InvalidOrder` error to the
retry mechanism like any other failure. -/
theorem invalidOrder_retried_counterexample :
    1 < (runAttempts invalidOrder (fun _ => sampleRand) maxRetries 0).length ∧
      (runAttempts invalidOrder (fun _ => sampleRand) maxRetries 0).length =
        maxRetries := by
  decide

/-- C3 (amended): a pipeline attempt that fails order validation is retried
exactly like quote and execution failures — the `InvalidOrder` error is
re-thrown, the attempt is re-run up to the retry ceiling (every one of the
`n` allowed attempts runs), and each attempt fails immediately after
`pending` with a final `failed`. -/
theorem runAttempts_validation_failure (o : Order) (rands : ℕ → Rand)
    (n i : ℕ)
    (hv : ∃ e, validateOrder o.tokenIn o.tokenOut o.amountIn o.slippage =
      .error e) :
    (runAttempts o rands n i).length = n ∧
      ∀ a ∈ runAttempts o rands n i,
        a.1 = [.pending, .failed] ∧ a.2.isOk = false := by
  obtain ⟨e, he⟩ := hv
  induction n generalizing i with
  | zero => exact ⟨rfl, by simp [runAttempts]⟩
  | succ m ih =>
    have hpo : processOrder o (rands i) = ([.pending, .failed], .error e) := by
      unfold processOrder
      rw [he]
    obtain ⟨ihlen, ihall⟩ := ih (i + 1)
    simp only [runAttempts, hpo]
    refine ⟨by simp [ihlen], ?_⟩
    intro a ha
    rcases List.mem_cons.mp ha with rfl | ha
    · exact ⟨rfl, rfl⟩
    · exact ihall a ha

/-- Witness for the amended C3 at the concrete invalid order with the
default retry ceiling. -/
theorem runAttempts_validation_failure_witness :
    (runAttempts invalidOrder (fun _ => sampleRand) maxRetries 0).length =
        maxRetries ∧
      ∀ a ∈ runAttempts invalidOrder (fun _ => sampleRand) maxRetries 0,
        a.1 = [.pending, .failed] ∧ a.2.isOk = false :=
  runAttempts_validation_failure invalidOrder (fun _ => sampleRand)
    maxRetries 0 ⟨.invalidTokenAddresses, rfl⟩

end DexEngine
